import Mathlib

/-!
Verification of the RPI landmarks chatbot (`chatbot.py`).

The development shallow-embeds the chatbot's string handling, landmark
resolver, knowledge-base records, response renderers and the
`process_input` pipeline into Lean.  Python strings are modelled through
their character lists (`String.data`); the handful of Python string
operations the code uses (`lower`, `strip`, `replace`, substring `in`,
`" ".join`) are given executable definitions with Python's semantics.
The external fuzzy scorer (`fuzz.partial_ratio`) and the GPT fallback are
third-party collaborators and are modelled as parameters (`score`,
`oracle`); everything proved about them holds for every possible scorer
and oracle.  Python exceptions (`KeyError`) are modelled by `Option`
results: `none` is an uncaught exception escaping `process_input`.
-/

/-- Python's default whitespace set for `str.strip`. -/
def pySpace (c : Char) : Bool :=
  c == ' ' || c == '\t' || c == '\n' || c == '\r' || c == '\x0b' || c == '\x0c'

/-- Python `str.lower` (ASCII fragment, which is all the chatbot uses). -/
def pyLower (s : String) : String :=
  ⟨s.data.map Char.toLower⟩

/-- Drop trailing whitespace from a character list. -/
def rstripWS (l : List Char) : List Char :=
  (l.reverse.dropWhile pySpace).reverse

/-- Python `str.strip` on the underlying character list. -/
def pyStripL (l : List Char) : List Char :=
  rstripWS (l.dropWhile pySpace)

/-- Python `str.strip`. -/
def pyStrip (s : String) : String :=
  ⟨pyStripL s.data⟩

/-- Scanner for Python `str.replace`: left-to-right, non-overlapping.
The `skip` counter carries the number of characters still to drop after a
match was emitted. -/
def replGo (pat rep : List Char) : List Char → Nat → List Char
  | [], _ => []
  | _ :: cs, skip + 1 => replGo pat rep cs skip
  | c :: cs, 0 =>
    if pat.isPrefixOf (c :: cs) ∧ pat ≠ [] then
      rep ++ replGo pat rep cs (pat.length - 1)
    else
      c :: replGo pat rep cs 0

/-- Python `str.replace` on character lists (nonempty pattern). -/
def pyReplaceL (pat rep s : List Char) : List Char :=
  replGo pat rep s 0

/-- Python `s.replace(pat, rep)`. -/
def pyReplace (s pat rep : String) : String :=
  ⟨pyReplaceL pat.data rep.data s.data⟩

/-- Contiguous-sublist test on character lists (Python's `in` on strings). -/
def isSubList (a : List Char) : List Char → Bool
  | [] => a.isPrefixOf []
  | c :: rest => a.isPrefixOf (c :: rest) || isSubList a rest

/-- Python `a in b` for strings. -/
def pyIn (a b : String) : Bool :=
  isSubList a.data b.data

/-- Python `sep.join(parts)`. -/
def pyJoin (sep : String) : List String → String
  | [] => ""
  | [x] => x
  | x :: xs => x ++ sep ++ pyJoin sep xs

/-- Python `any(word in query for word in words)`. -/
def containsAny (query : String) (words : List String) : Bool :=
  words.any (fun w => pyIn w query)

/-- The hard-coded alias table of `_fuzzy_match_landmark`, in source order
(Python dicts preserve insertion order). -/
def landmarksTable : List (String × String) :=
  [("russell sage", "russell_sage"),
   ("sage lab", "russell_sage"),
   ("sage laboratory", "russell_sage"),
   ("russel", "russell_sage"),
   ("russell", "russell_sage"),
   ("sage", "russell_sage"),
   ("rsl", "russell_sage"),
   ("west hall", "west_hall"),
   ("west", "west_hall"),
   ("wh", "west_hall"),
   ("rpi union", "rpi_union"),
   ("student union", "rpi_union"),
   ("union", "rpi_union"),
   ("campus union", "rpi_union"),
   ("folsom", "folsom_library"),
   ("library", "folsom_library"),
   ("folsom lib", "folsom_library"),
   ("folsum", "folsom_library"),
   ("folsam", "folsom_library"),
   ("lib", "folsom_library"),
   ("empac", "empac"),
   ("experimental media", "empac"),
   ("performing arts", "empac"),
   ("arts center", "empac"),
   ("experimental", "empac"),
   ("media center", "empac")]

/-- Normalisation performed on the raw query before matching:
lowercase, strip, remove the three filler phrases, strip again. -/
def cleanQuery (q : String) : String :=
  pyStrip (pyReplace (pyReplace (pyReplace (pyStrip (pyLower q))
    "tell me about" "") "what about" "") "where is" "")

/-- First containment pass of `_fuzzy_match_landmark`:
`if query in key or key in query: return landmarks[key]`. -/
def containScan (query : String) : List (String × String) → Option String
  | [] => none
  | (k, v) :: rest =>
    if pyIn query k || pyIn k query then some v else containScan query rest

/-- The fuzzy fallback loop of `_fuzzy_match_landmark`, tracking
`best_match` and `best_ratio`; the acceptance test is
`ratio > best_ratio and ratio > 70`. -/
def fuzzyLoop (score : String → String → Nat) (query : String) :
    List (String × String) → Option String → Nat → Option String × Nat
  | [], bm, br => (bm, br)
  | (k, v) :: rest, bm, br =>
    if br < score query k ∧ 70 < score query k then
      fuzzyLoop score query rest (some v) (score query k)
    else fuzzyLoop score query rest bm br

/-- Result of the resolver: matched landmark key and the fuzzy flag. -/
structure MatchResult where
  landmark : String
  is_fuzzy : Bool
deriving DecidableEq, Repr

/-- `_fuzzy_match_landmark`, parameterised by the external similarity
scorer (`fuzz.partial_ratio` in the source). -/
def fuzzy_match_landmark (score : String → String → Nat) (q : String) :
    Option MatchResult :=
  match containScan (cleanQuery q) landmarksTable with
  | some v => some ⟨v, false⟩
  | none =>
    match (fuzzyLoop score (cleanQuery q) landmarksTable none 0).1 with
    | some v => some ⟨v, true⟩
    | none => none

/-- Maximum similarity score of the cleaned query against the table. -/
def maxScore (score : String → String → Nat) (query : String)
    (l : List (String × String)) : Nat :=
  l.foldr (fun kv m => max (score query kv.1) m) 0

/-- Namesake attribution data (`name`, optional `role` and `years`). -/
structure Namesake where
  name : String
  role : Option String
  years : Option String
deriving DecidableEq, Repr

/-- One `{year, event}` entry of a history timeline. -/
structure TimelineEntry where
  year : String
  event : String
deriving DecidableEq, Repr

/-- A record's history sub-record.  The `namesake` field belongs to the
data model (spec section 3) but is never read by `_get_history_info`,
which reads the record's top-level `namesake` field instead. -/
structure HistoryRec where
  evolution : Option String
  origins : Option String
  original_purpose : Option String
  builder : Option String
  timeline : Option (List TimelineEntry)
  significance : Option String
  namesake : Option Namesake
deriving DecidableEq, Repr

/-- A record's architecture sub-record. -/
structure ArchitectureRec where
  style : Option String
  features : Option (List String)
  architect : Option String
deriving DecidableEq, Repr

/-- A record's current-use sub-record. -/
structure CurrentUseRec where
  departments : Option (List String)
  department : Option String
  facilities : Option (List String)
deriving DecidableEq, Repr

/-- Student-activities data inside the union's `features` sub-record. -/
structure ActivitiesRec where
  clubs : Option String
  types : Option (List String)
deriving DecidableEq, Repr

/-- The union-only `features` sub-record. -/
structure FeaturesRec where
  student_activities : Option ActivitiesRec
  facilities : Option (List String)
deriving DecidableEq, Repr

/-- A landmark record of the knowledge base: every field the code reads,
all optional (JSON keys may be absent). -/
structure Info where
  name : Option String
  built : Option String
  established : Option String
  dedicated : Option String
  significance : Option String
  history : Option HistoryRec
  architecture : Option ArchitectureRec
  current_use : Option CurrentUseRec
  features : Option FeaturesRec
  events : Option (List String)
  management : Option String
  namesake : Option Namesake
deriving DecidableEq, Repr

/-- The record with no fields: what `knowledge['landmarks'].get(k, {})`
yields for an unknown key, and the falsy value of `if not info:`. -/
def emptyInfo : Info :=
  ⟨none, none, none, none, none, none, none, none, none, none, none, none⟩

/-- The `landmarks` mapping of the knowledge base, kept abstract: the
JSON data file is not part of the source files under verification. -/
def Knowledge : Type := String → Option Info

/-- `_get_history_info`. -/
def get_history_info (info : Info) : String :=
  let name := info.name.getD "This landmark"
  let parts : List String :=
    match info.history with
    | none => []
    | some h =>
      (match h.evolution with | some e => [e] | none => []) ++
      (match h.origins with
       | some o => ["Its origins date back to " ++ o ++ "."]
       | none => []) ++
      (match h.original_purpose with
       | some p => [name ++ "'s original purpose was as " ++ p ++ "."]
       | none => []) ++
      (match h.builder with
       | some b => ["It was built by " ++ b ++ "."]
       | none => []) ++
      (match h.timeline with
       | some evs =>
         "Key events in its history include:" ::
           evs.map (fun ev => "- " ++ ev.year ++ ": " ++ ev.event)
       | none => []) ++
      (match h.significance with
       | some s => ["It is historically significant as " ++ s ++ "."]
       | none => []) ++
      (match info.namesake with
       | some ns =>
         ["It was named after " ++ ns.name] ++
         (match ns.role with | some r => ["who was " ++ r] | none => []) ++
         (match ns.years with | some y => ["from " ++ y] | none => [])
       | none => [])
  if parts = [] then
    "I don't have detailed historical information about " ++ name ++
      ", but you can ask about its architecture or current use."
  else
    pyReplace (pyJoin " " parts) ".." "." ++ "."

/-- `_get_architecture_info`. -/
def get_architecture_info (info : Info) : String :=
  let name := info.name.getD "This landmark"
  let parts : List String :=
    match info.architecture with
    | none => []
    | some a =>
      (match a.style with
       | some st => [name ++ " features " ++ st ++ " architecture."]
       | none => []) ++
      (match a.features with
       | some fs =>
         ["Notable architectural features include: " ++ pyJoin ", " fs ++ "."]
       | none => []) ++
      (match a.architect with
       | some ar => ["It was designed by " ++ ar ++ "."]
       | none => [])
  if parts = [] then
    "I don't have detailed architectural information about " ++ name ++
      ", but you can ask about its history or current use."
  else
    pyJoin " " parts

/-- `_get_current_use_info`. -/
def get_current_use_info (info : Info) : String :=
  let name := info.name.getD "This landmark"
  let parts : List String :=
    (match info.current_use with
     | none => []
     | some cu =>
       (match cu.departments with
        | some ds => [name ++ " currently houses " ++ pyJoin ", " ds ++ "."]
        | none =>
          match cu.department with
          | some d => [name ++ " currently houses the " ++ d ++ "."]
          | none => []) ++
       (match cu.facilities with
        | some fs => ["Its facilities include: " ++ pyJoin ", " fs ++ "."]
        | none => [])) ++
    (match info.features with
     | none => []
     | some fe =>
       (match fe.student_activities with
        | none => []
        | some ac =>
          (match ac.clubs with
           | some c => ["It hosts " ++ c ++ "."]
           | none => []) ++
          (match ac.types with
           | some ts => ["These include " ++ pyJoin ", " ts ++ "."]
           | none => [])) ++
       (match fe.facilities with
        | some fs => ["Facilities include: " ++ pyJoin ", " fs ++ "."]
        | none => [])) ++
    (match info.events with
     | some es => ["Regular events include: " ++ pyJoin ", " es ++ "."]
     | none => []) ++
    (match info.management with
     | some m => ["It is a " ++ m ++ "."]
     | none => [])
  if parts = [] then
    "I don't have detailed information about " ++ name ++
      "'s current use, but you can ask about its history or architecture."
  else
    pyJoin " " parts

/-- `_get_events_info` (union only; may return the empty string). -/
def get_events_info (info : Info) : String :=
  let name := info.name.getD "The Union"
  let parts : List String :=
    (match info.events with
     | some es =>
       [name ++ " hosts various events including: " ++ pyJoin ", " es ++ "."]
     | none => []) ++
    (match info.features with
     | none => []
     | some fe =>
       match fe.student_activities with
       | none => []
       | some ac =>
         (match ac.clubs with
          | some c => ["It supports " ++ c ++ "."]
          | none => []) ++
         (match ac.types with
          | some ts => ["These include " ++ pyJoin ", " ts ++ "."]
          | none => []))
  pyJoin " " parts

/-- `_get_facilities_info` (union only; may return the empty string). -/
def get_facilities_info (info : Info) : String :=
  let name := info.name.getD "The Union"
  let parts : List String :=
    match info.features with
    | none => []
    | some fe =>
      match fe.facilities with
      | some fs => [name ++ "'s facilities include: " ++ pyJoin ", " fs ++ "."]
      | none => []
  pyJoin " " parts

/-- The generic fallback sentence of `_generate_basic_response` for an
empty record. -/
def troubleMsg : String :=
  "I have some information about that landmark, but I'm having trouble accessing it right now."

/-- `_generate_basic_response`. -/
def generate_basic_response (landmark : String) (info : Info) : String :=
  if info = emptyInfo then troubleMsg
  else
    let name := info.name.getD "this landmark"
    let parts : List String :=
      (match info.built with
       | some b => [name ++ " was built in " ++ b ++ "."]
       | none =>
         match info.established with
         | some e => [name ++ " was established in " ++ e ++ "."]
         | none =>
           match info.dedicated with
           | some d => [name ++ " was dedicated in " ++ d ++ "."]
           | none => []) ++
      (match info.significance with
       | some s => ["It is notable for being " ++ s ++ "."]
       | none => []) ++
      [if landmark = "rpi_union" then
        "Would you like to know more about its student activities, events, or facilities?"
       else
        "Would you like to know more about its history, architecture, or current use?"]
    pyJoin " " parts

/-- `_handle_followup`: facet-keyword dispatch on the current topic. -/
def handle_followup (kb : Knowledge) (topic : String) (user_input : String) :
    Option String :=
  let query := pyLower user_input
  let info := (kb topic).getD emptyInfo
  if topic = "rpi_union" then
    if containsAny query ["event", "activities", "programs"] then
      some (get_events_info info)
    else if containsAny query ["facilities", "rooms", "spaces"] then
      some (get_facilities_info info)
    else if containsAny query ["history", "background", "past"] then
      some (get_history_info info)
    else none
  else
    if containsAny query ["history", "background", "past", "origin"] then
      some (get_history_info info)
    else if containsAny query ["architecture", "design", "building", "structure"] then
      some (get_architecture_info info)
    else if containsAny query ["current", "now", "today", "use", "purpose"] then
      some (get_current_use_info info)
    else none

/-- Structured reply of the external GPT disambiguator
(`_analyze_noisy_input`); the two fields the caller reads, each possibly
absent.  `_analyze_noisy_input` itself never raises (it catches its own
errors and returns an empty dict, modelled by both fields absent). -/
structure GptAnalysis where
  landmark : Option String
  original : Option String
deriving DecidableEq, Repr

/-- Conversation state (`self.context`): current topic, the never-used
subtopic slot, and the role-tagged utterance log. -/
structure Context where
  current_topic : Option String
  current_subtopic : Option String
  conversation_history : List (String × String)
deriving DecidableEq, Repr

/-- The state set up by `__init__`. -/
def initContext : Context := ⟨none, none, []⟩

/-- The guidance message returned when every matching attempt fails. -/
def guidanceMsg : String :=
  "I'm not sure which RPI landmark you're asking about. Could you specify one of: Russell Sage Laboratory, West Hall, RPI Union, Folsom Library, or EMPAC?"

/-- The part of `process_input` that runs when no follow-up applies:
fuzzy matching, the GPT fallback (whose failures are caught), and
response generation.  The result's first component is the response, or
`none` for an uncaught exception (the `info['name']` `KeyError` on the
fuzzy branch). -/
def resolveStage (score : String → String → Nat)
    (oracle : String → GptAnalysis) (kb : Knowledge) (ctx : Context)
    (user_input : String) : Option String × Context :=
  match fuzzy_match_landmark score user_input with
  | some mr =>
    if mr.is_fuzzy then
      match ((kb mr.landmark).getD emptyInfo).name with
      | some nm =>
        (some ("I think you might be referring to " ++ nm ++ ". " ++
          generate_basic_response mr.landmark
            ((kb mr.landmark).getD emptyInfo)),
         { ctx with current_topic := some mr.landmark })
      | none => (none, { ctx with current_topic := some mr.landmark })
    else
      (some (generate_basic_response mr.landmark
          ((kb mr.landmark).getD emptyInfo)),
       { ctx with current_topic := some mr.landmark })
  | none =>
    match (oracle user_input).landmark with
    | some l =>
      if l ≠ "" then
        match (oracle user_input).original with
        | some _ =>
          match kb l with
          | some info =>
            match info.name with
            | some nm =>
              (some ("I think you might be referring to " ++ nm ++ ". " ++
                generate_basic_response l info),
               { ctx with current_topic := some l })
            | none => (some guidanceMsg, ctx)
          | none => (some guidanceMsg, ctx)
        | none => (some guidanceMsg, ctx)
      else (some guidanceMsg, ctx)
    | none => (some guidanceMsg, ctx)

/-- `process_input`: log the utterance, try the follow-up interpretation
when a topic is set, otherwise resolve the text. -/
def process_input (score : String → String → Nat)
    (oracle : String → GptAnalysis) (kb : Knowledge) (ctx : Context)
    (user_input : String) : Option String × Context :=
  let ctx1 :=
    { ctx with conversation_history :=
        ctx.conversation_history ++ [("user", user_input)] }
  match ctx.current_topic with
  | some topic =>
    (match handle_followup kb topic user_input with
     | some r =>
       if r = "" then resolveStage score oracle kb ctx1 user_input
       else
         (some r, { ctx1 with conversation_history :=
             ctx1.conversation_history ++ [("assistant", r)] })
     | none => resolveStage score oracle kb ctx1 user_input)
  | none => resolveStage score oracle kb ctx1 user_input

/-- Fold a list of turns through `process_input`, keeping the state. -/
def runInputs (score : String → String → Nat)
    (oracle : String → GptAnalysis) (kb : Knowledge) :
    Context → List String → Context
  | ctx, [] => ctx
  | ctx, q :: rest =>
    runInputs score oracle kb (process_input score oracle kb ctx q).2 rest

/-- A constant similarity scorer giving 0 everywhere (test fixture). -/
def scoreZero : String → String → Nat := fun _ _ => 0

/-- A constant similarity scorer giving 100 everywhere (test fixture). -/
def score100 : String → String → Nat := fun _ _ => 100

/-- A GPT oracle that identifies nothing (the usual behaviour when the
API call fails and `_analyze_noisy_input` returns an empty dict). -/
def oracleEmpty : String → GptAnalysis := fun _ => ⟨none, none⟩

/-- A knowledge base with an empty `landmarks` mapping. -/
def kbEmpty : Knowledge := fun _ => none

/-- A query whose cleaned form passes the containment scan resolves to
the scanned value as an exact match, for every similarity scorer. -/
theorem fuzzy_match_of_contain (score : String → String → Nat)
    (q v : String) (h : containScan (cleanQuery q) landmarksTable = some v) :
    fuzzy_match_landmark score q = some ⟨v, false⟩ := by
  unfold fuzzy_match_landmark
  rw [h]

/-- Every alias of the table, run through the query normalisation,
passes the containment scan straight to its own mapped landmark. -/
theorem alias_contain_all :
    ∀ kv ∈ landmarksTable,
      containScan (pyStrip (pyReplace (pyReplace (pyReplace (pyStrip kv.1)
          "tell me about" "") "what about" "") "where is" ""))
        landmarksTable = some kv.2 := by
  decide

/-- C1: for every alias string in the hard-coded alias table, calling the
resolver on exactly that string in any letter casing (any `s` whose
lowercase form is the alias) returns that alias's mapped landmark
identifier with the `is_fuzzy` flag false, for every similarity scorer:
the containment pass decides the result. -/
theorem alias_resolves_exact (a v : String) (h : (a, v) ∈ landmarksTable)
    (score : String → String → Nat) (s : String) (hs : pyLower s = a) :
    fuzzy_match_landmark score s = some ⟨v, false⟩ := by
  apply fuzzy_match_of_contain
  show containScan (cleanQuery s) landmarksTable = some v
  unfold cleanQuery
  rw [hs]
  exact alias_contain_all (a, v) h

/-- Witness for C1 at the alias "sage lab" written as "Sage LAB". -/
theorem alias_resolves_exact_witness :
    ("sage lab", "russell_sage") ∈ landmarksTable ∧
    pyLower "Sage LAB" = "sage lab" ∧
    fuzzy_match_landmark scoreZero "Sage LAB" =
      some ⟨"russell_sage", false⟩ :=
  ⟨by decide, by decide,
   alias_resolves_exact "sage lab" "russell_sage" (by decide) scoreZero
     "Sage LAB" (by decide)⟩

/-- The fuzzy loop leaves its accumulator untouched when no entry scores
both above the running best and above 70. -/
theorem fuzzyLoop_const (score : String → String → Nat) (q : String) :
    ∀ (l : List (String × String)) (bm : Option String) (br : Nat),
      (∀ kv ∈ l, score q kv.1 ≤ br ∨ score q kv.1 ≤ 70) →
      fuzzyLoop score q l bm br = (bm, br) := by
  intro l
  induction l with
  | nil => intro bm br _; rfl
  | cons kv rest ih =>
    intro bm br h
    obtain ⟨k, v⟩ := kv
    have hk := h (k, v) (List.mem_cons_self _ _)
    simp only [fuzzyLoop]
    rw [if_neg]
    · exact ih bm br (fun kv hm => h kv (List.mem_cons_of_mem _ hm))
    · rintro ⟨h1, h2⟩
      rcases hk with hk | hk <;> simp only at hk <;> omega

/-- Every entry's score is bounded by the running maximum. -/
theorem le_maxScore (score : String → String → Nat) (q : String) :
    ∀ (l : List (String × String)) (kv : String × String), kv ∈ l →
      score q kv.1 ≤ maxScore score q l := by
  intro l
  induction l with
  | nil => intro kv hm; cases hm
  | cons hd rest ih =>
    intro kv hm
    simp only [maxScore, List.foldr] at *
    rcases List.mem_cons.mp hm with rfl | hm
    · exact le_max_left _ _
    · exact le_trans (ih kv hm) (le_max_right _ _)

/-- When the maximum score strictly exceeds both the running best and 70,
the loop ends on a maximum-attaining entry's landmark. -/
theorem fuzzyLoop_max (score : String → String → Nat) (q : String) :
    ∀ (l : List (String × String)) (bm : Option String) (br : Nat),
      br < maxScore score q l → 70 < maxScore score q l →
      ∃ k v, (k, v) ∈ l ∧ score q k = maxScore score q l ∧
        (fuzzyLoop score q l bm br).1 = some v := by
  intro l
  induction l with
  | nil => intro bm br h1 _; simp [maxScore] at h1
  | cons hd rest ih =>
    intro bm br h1 h2
    obtain ⟨k, v⟩ := hd
    have hm : maxScore score q ((k, v) :: rest) =
        max (score q k) (maxScore score q rest) := rfl
    rw [hm] at h1 h2
    rcases le_or_lt (maxScore score q rest) (score q k) with hle | hlt
    · rw [max_eq_left hle] at h1 h2
      refine ⟨k, v, List.mem_cons_self _ _, ?_, ?_⟩
      · rw [hm, max_eq_left hle]
      · simp only [fuzzyLoop]
        rw [if_pos ⟨h1, h2⟩, fuzzyLoop_const score q rest (some v) (score q k)
          (fun kv hmem => Or.inl (le_trans (le_maxScore score q rest kv hmem) hle))]
    · rw [max_eq_right hlt.le] at h1 h2
      simp only [fuzzyLoop]
      by_cases hc : br < score q k ∧ 70 < score q k
      · rw [if_pos hc]
        obtain ⟨k', v', hmem, hsc, hres⟩ := ih (some v) (score q k) hlt h2
        exact ⟨k', v', List.mem_cons_of_mem _ hmem,
          by rw [hm, max_eq_right hlt.le]; exact hsc, hres⟩
      · rw [if_neg hc]
        obtain ⟨k', v', hmem, hsc, hres⟩ := ih bm br h1 h2
        exact ⟨k', v', List.mem_cons_of_mem _ hmem,
          by rw [hm, max_eq_right hlt.le]; exact hsc, hres⟩

/-- When no alias has a containment relation with the query, the
containment scan returns no match. -/
theorem containScan_none (query : String) :
    ∀ (l : List (String × String)),
      (∀ kv ∈ l, pyIn query kv.1 = false ∧ pyIn kv.1 query = false) →
      containScan query l = none := by
  intro l
  induction l with
  | nil => intro _; rfl
  | cons hd rest ih =>
    intro h
    obtain ⟨k, v⟩ := hd
    obtain ⟨h1, h2⟩ := h (k, v) (List.mem_cons_self _ _)
    simp only [containScan, h1, h2, Bool.or_self, Bool.false_eq_true,
      if_false]
    exact ih (fun kv hm => h kv (List.mem_cons_of_mem _ hm))

/-- C2: when the cleaned input has no containment relation with any
alias, the resolver returns a fuzzy match to an alias attaining the
maximum similarity score exactly when that maximum strictly exceeds the
threshold 70; a maximum of 70 or below yields no match. -/
theorem fuzzy_threshold (score : String → String → Nat) (q : String)
    (h : ∀ kv ∈ landmarksTable,
      pyIn (cleanQuery q) kv.1 = false ∧ pyIn kv.1 (cleanQuery q) = false) :
    (maxScore score (cleanQuery q) landmarksTable ≤ 70 →
      fuzzy_match_landmark score q = none) ∧
    (70 < maxScore score (cleanQuery q) landmarksTable →
      ∃ k v, (k, v) ∈ landmarksTable ∧
        score (cleanQuery q) k = maxScore score (cleanQuery q) landmarksTable ∧
        fuzzy_match_landmark score q = some ⟨v, true⟩) := by
  have hcs := containScan_none (cleanQuery q) landmarksTable h
  constructor
  · intro hle
    unfold fuzzy_match_landmark
    rw [hcs, fuzzyLoop_const score (cleanQuery q) landmarksTable none 0
      (fun kv hm => Or.inr (le_trans (le_maxScore _ _ _ kv hm) hle))]
  · intro hgt
    obtain ⟨k, v, hmem, hsc, hres⟩ :=
      fuzzyLoop_max score (cleanQuery q) landmarksTable none 0
        (by omega) hgt
    refine ⟨k, v, hmem, hsc, ?_⟩
    unfold fuzzy_match_landmark
    rw [hcs, hres]

/-- Witness for C2 at the query "zzz" (no containment with any alias)
under the constant scorer 100: the maximum exceeds 70 and a fuzzy match
is returned. -/
theorem fuzzy_threshold_witness :
    (∀ kv ∈ landmarksTable, pyIn (cleanQuery "zzz") kv.1 = false ∧
      pyIn kv.1 (cleanQuery "zzz") = false) ∧
    70 < maxScore score100 (cleanQuery "zzz") landmarksTable ∧
    ∃ k v, (k, v) ∈ landmarksTable ∧
      score100 (cleanQuery "zzz") k =
        maxScore score100 (cleanQuery "zzz") landmarksTable ∧
      fuzzy_match_landmark score100 "zzz" = some ⟨v, true⟩ :=
  ⟨by decide, by decide,
   (fuzzy_threshold score100 "zzz" (by decide)).2 (by decide)⟩

/-- Two strings with equal character data are equal. -/
theorem string_data_ext (s t : String) (h : s.data = t.data) : s = t := by
  cases s
  cases t
  exact congrArg String.mk h

/-- Appending distributes over the character data. -/
theorem data_append (a b : String) : (a ++ b).data = a.data ++ b.data := rfl

/-- An append whose right part has nonempty data has nonempty data. -/
theorem data_ne_of_append_lit (a b : String) (hb : b.data ≠ []) :
    (a ++ b).data ≠ [] := by
  rw [data_append]
  intro h
  exact hb (List.append_eq_nil.mp h).2

/-- An append whose right part has nonempty data is not the empty string. -/
theorem append_right_ne_empty (a b : String) (hb : b.data ≠ []) :
    a ++ b ≠ "" := by
  intro h
  exact data_ne_of_append_lit a b hb (congrArg String.data h)

/-- A join of a list whose head has nonempty data is not empty. -/
theorem pyJoin_ne_empty (sep x : String) (xs : List String)
    (hx : x.data ≠ []) : pyJoin sep (x :: xs) ≠ "" := by
  cases xs with
  | nil =>
    intro h
    exact hx (congrArg String.data h)
  | cons y ys =>
    simp only [pyJoin]
    intro h
    have := congrArg String.data h
    rw [data_append, data_append] at this
    exact hx (List.append_eq_nil.mp (List.append_eq_nil.mp this).1).1

/-- The history facet never renders to the empty string (Python truthiness:
its return value is always accepted by `if response:`). -/
theorem get_history_info_ne (info : Info) : get_history_info info ≠ "" := by
  simp only [get_history_info]
  split
  · exact append_right_ne_empty _ _ (by decide)
  · exact append_right_ne_empty _ "." (by decide)

/-- The architecture facet never renders to the empty string. -/
theorem get_architecture_info_ne (info : Info) :
    get_architecture_info info ≠ "" := by
  obtain ⟨nm, bu, es, de, sg, hi, ar, cu, fe, ev, mg, ns⟩ := info
  simp only [get_architecture_info]
  rcases ar with _ | ⟨st, fs, arch⟩
  · exact append_right_ne_empty _ _ (by decide)
  · rcases st with _ | st <;> rcases fs with _ | fs <;>
      rcases arch with _ | arch <;>
      simp only <;>
      first
        | exact append_right_ne_empty _ _ (by decide)
        | exact pyJoin_ne_empty _ _ _ (data_ne_of_append_lit _ _ (by decide))

/-- A follow-up turn consisting of the word "history" is always routed to
the history facet of the current topic, for every topic (the union branch
and the standard branch both map it there). -/
theorem handle_followup_history (kb : Knowledge) (topic : String) :
    handle_followup kb topic "history" =
      some (get_history_info ((kb topic).getD emptyInfo)) := by
  unfold handle_followup
  by_cases h : topic = "rpi_union"
  · rw [if_pos h, if_neg (by decide), if_neg (by decide), if_pos (by decide)]
  · rw [if_neg h, if_pos (by decide)]

/-- With a topic set, the turn "history" returns the history facet of the
topic's record and leaves the topic unchanged, for every scorer, oracle
and knowledge base: the alias table plays no part. -/
theorem followup_history_state (score : String → String → Nat)
    (oracle : String → GptAnalysis) (kb : Knowledge) (ctx : Context)
    (X : String) (h : ctx.current_topic = some X) :
    (process_input score oracle kb ctx "history").1 =
      some (get_history_info ((kb X).getD emptyInfo)) ∧
    (process_input score oracle kb ctx "history").2.current_topic = some X := by
  simp only [process_input, h, handle_followup_history kb X,
    if_neg (get_history_info_ne ((kb X).getD emptyInfo))]
  constructor <;> trivial

/-- C3: after `process_input` successfully resolves landmark X (leaving
the current topic at X), a subsequent `process_input` call whose text is
the word "history" returns the history-facet rendering of X's record and
leaves the current topic equal to X; the text is never re-resolved
against the alias table (the result is independent of scorer and oracle). -/
theorem followup_history_after_resolve (score : String → String → Nat)
    (oracle : String → GptAnalysis) (kb : Knowledge) (ctx0 : Context)
    (q0 : String) (X : String)
    (h : (process_input score oracle kb ctx0 q0).2.current_topic = some X) :
    (process_input score oracle kb (process_input score oracle kb ctx0 q0).2
        "history").1 = some (get_history_info ((kb X).getD emptyInfo)) ∧
    (process_input score oracle kb (process_input score oracle kb ctx0 q0).2
        "history").2.current_topic = some X :=
  followup_history_state score oracle kb _ X h

/-- A small concrete record for the west_hall key (test fixture). -/
def infoWest : Info :=
  { name := some "West Hall", built := some "1869", established := none,
    dedicated := none,
    significance := some "one of the oldest buildings on campus",
    history := some { evolution := some "It began as a hospital.",
                      origins := none, original_purpose := none,
                      builder := none, timeline := none,
                      significance := none, namesake := none },
    architecture := some { style := some "Second Empire",
                           features := none, architect := none },
    current_use := none, features := none, events := none,
    management := none, namesake := none }

/-- A knowledge base holding only the west_hall record (test fixture). -/
def kbWest : Knowledge := fun k => if k = "west_hall" then some infoWest else none

/-- Witness for C3: resolve "west hall", then ask "history". -/
theorem followup_history_witness :
    (process_input scoreZero oracleEmpty kbWest initContext
        "west hall").2.current_topic = some "west_hall" ∧
    (process_input scoreZero oracleEmpty kbWest
        (process_input scoreZero oracleEmpty kbWest initContext "west hall").2
        "history").1 =
      some (get_history_info ((kbWest "west_hall").getD emptyInfo)) :=
  ⟨by decide,
   (followup_history_after_resolve scoreZero oracleEmpty kbWest initContext
     "west hall" "west_hall" (by decide)).1⟩

/-- C7: rendering the history facet of a record with no history
sub-fields at all (no history sub-record, or one whose sub-fields —
including its data-model namesake slot — are all absent, with no
top-level namesake either) returns the literal fallback apology naming
architecture and current use as the alternatives. -/
theorem history_fallback_apology (info : Info)
    (h : info.history = none ∨
      (info.history = some ⟨none, none, none, none, none, none, none⟩ ∧
       info.namesake = none)) :
    get_history_info info =
      "I don't have detailed historical information about " ++
        info.name.getD "This landmark" ++
        ", but you can ask about its architecture or current use." := by
  obtain ⟨nm, bu, es, de, sg, hi, ar, cu, fe, ev, mg, ns⟩ := info
  simp only at h
  rcases h with rfl | ⟨rfl, rfl⟩ <;> rfl

/-- Witness for C7 at a record whose history sub-record is absent. -/
theorem history_fallback_apology_witness :
    ((none : Option HistoryRec) = none ∨
      ((none : Option HistoryRec) = some ⟨none, none, none, none, none, none, none⟩ ∧
       (none : Option Namesake) = none)) ∧
    get_history_info
        { name := some "EMPAC", built := none, established := none,
          dedicated := none, significance := none, history := none,
          architecture := none, current_use := none, features := none,
          events := none, management := none, namesake := none } =
      "I don't have detailed historical information about " ++
        (some "EMPAC").getD "This landmark" ++
        ", but you can ask about its architecture or current use." :=
  ⟨Or.inl rfl,
   history_fallback_apology
     { name := some "EMPAC", built := none, established := none,
       dedicated := none, significance := none, history := none,
       architecture := none, current_use := none, features := none,
       events := none, management := none, namesake := none }
     (Or.inl rfl)⟩

/-- `_generate_basic_response` on the empty record returns the generic
trouble sentence. -/
theorem generate_basic_response_empty (landmark : String) :
    generate_basic_response landmark emptyInfo = troubleMsg := by
  unfold generate_basic_response
  rw [if_pos rfl]

/-- For a non-union topic, a turn with an architecture keyword and no
history keyword routes to the architecture facet. -/
theorem handle_followup_architecture (kb : Knowledge) (topic : String)
    (q : String) (hX : topic ≠ "rpi_union")
    (hA : containsAny (pyLower q)
      ["architecture", "design", "building", "structure"] = true)
    (hH : containsAny (pyLower q)
      ["history", "background", "past", "origin"] = false) :
    handle_followup kb topic q =
      some (get_architecture_info ((kb topic).getD emptyInfo)) := by
  simp only [handle_followup, if_neg hX, hH, hA, Bool.false_eq_true,
    if_false, if_true]

/-- C5 (amended): with a current topic other than the union record, a
follow-up turn containing an architecture keyword and no
earlier-checked history keyword returns the architecture-facet rendering
of the current topic's record and keeps the topic.  For the rpi_union
topic the claim fails: the union branch of `_handle_followup` returns
`None` before the architecture branch is ever reached (see the
counterexample). -/
theorem followup_architecture_facet (score : String → String → Nat)
    (oracle : String → GptAnalysis) (kb : Knowledge) (ctx : Context)
    (X : String) (q : String) (hT : ctx.current_topic = some X)
    (hX : X ≠ "rpi_union")
    (hA : containsAny (pyLower q)
      ["architecture", "design", "building", "structure"] = true)
    (hH : containsAny (pyLower q)
      ["history", "background", "past", "origin"] = false) :
    (process_input score oracle kb ctx q).1 =
      some (get_architecture_info ((kb X).getD emptyInfo)) ∧
    (process_input score oracle kb ctx q).2.current_topic = some X := by
  simp only [process_input, hT, handle_followup_architecture kb X q hX hA hH,
    if_neg (get_architecture_info_ne ((kb X).getD emptyInfo))]
  constructor <;> trivial

/-- A union record with architecture data (test fixture). -/
def infoUnionArch : Info :=
  { name := some "Rensselaer Union", built := none, established := none,
    dedicated := none, significance := none, history := none,
    architecture := some { style := some "modern",
                           features := none, architect := none },
    current_use := none, features := none, events := none,
    management := none, namesake := none }

/-- A knowledge base holding only the union record (test fixture). -/
def kbUnionArch : Knowledge :=
  fun k => if k = "rpi_union" then some infoUnionArch else none

/-- A context whose current topic is the union record (test fixture). -/
def ctxUnion : Context := ⟨some "rpi_union", none, []⟩

/-- Counterexample to C5 as stated: with current topic rpi_union and the
turn "architecture", `process_input` does not return the
architecture-facet rendering (the union branch returns `None`, the text
is re-resolved and fails, and the guidance message comes back). -/
theorem union_architecture_cex :
    (process_input scoreZero oracleEmpty kbUnionArch ctxUnion
        "architecture").1 = some guidanceMsg ∧
    guidanceMsg ≠
      get_architecture_info ((kbUnionArch "rpi_union").getD emptyInfo) := by
  constructor
  · decide
  · decide

/-- Witness for C5 (amended) at topic west_hall and turn "the design". -/
theorem followup_architecture_facet_witness :
    containsAny (pyLower "the design")
      ["architecture", "design", "building", "structure"] = true ∧
    (process_input scoreZero oracleEmpty kbWest ⟨some "west_hall", none, []⟩
        "the design").1 =
      some (get_architecture_info ((kbWest "west_hall").getD emptyInfo)) :=
  ⟨by decide,
   (followup_architecture_facet scoreZero oracleEmpty kbWest
     ⟨some "west_hall", none, []⟩ "west_hall" "the design" rfl (by decide)
     (by decide) (by decide)).1⟩

/-- C4 (amended): when the resolver chooses a landmark absent from the
knowledge base (topic not yet set), the exact-match path returns the
single generic trouble sentence without raising, but the fuzzy-match
path raises a `KeyError` (`info['name']` on an empty dict, modelled as
`none`) — after having already set the current topic. -/
theorem record_absent_behavior (score : String → String → Nat)
    (oracle : String → GptAnalysis) (kb : Knowledge) (ctx : Context)
    (q : String) (mr : MatchResult) (hc : ctx.current_topic = none)
    (hm : fuzzy_match_landmark score q = some mr)
    (hkb : kb mr.landmark = none) :
    (mr.is_fuzzy = false →
      (process_input score oracle kb ctx q).1 = some troubleMsg) ∧
    (mr.is_fuzzy = true →
      (process_input score oracle kb ctx q).1 = none) ∧
    (process_input score oracle kb ctx q).2.current_topic =
      some mr.landmark := by
  obtain ⟨lm, fz⟩ := mr
  simp only at hkb
  simp only [process_input, hc, resolveStage, hm, hkb, Option.getD_none]
  cases fz
  · exact ⟨fun _ => rfl, fun hab => absurd hab (by decide), rfl⟩
  · exact ⟨fun hab => absurd hab (by decide), fun _ => rfl, rfl⟩

/-- Counterexample to C4 as stated: a fuzzy outcome ("zzz" under a
scorer rating every alias 100) whose landmark is absent from the
knowledge base makes `process_input` raise (result `none`), instead of
returning the generic trouble sentence. -/
theorem record_absent_fuzzy_cex :
    fuzzy_match_landmark score100 "zzz" = some ⟨"russell_sage", true⟩ ∧
    kbEmpty "russell_sage" = none ∧
    (process_input score100 oracleEmpty kbEmpty initContext "zzz").1 =
      none := by
  refine ⟨by decide, rfl, by decide⟩

/-- Witness for C4 (amended): the exact outcome "sage lab" against an
empty knowledge base yields the trouble sentence. -/
theorem record_absent_behavior_witness :
    fuzzy_match_landmark scoreZero "sage lab" =
      some ⟨"russell_sage", false⟩ ∧
    kbEmpty "russell_sage" = none ∧
    (process_input scoreZero oracleEmpty kbEmpty initContext "sage lab").1 =
      some troubleMsg :=
  ⟨by decide, rfl,
   (record_absent_behavior scoreZero oracleEmpty kbEmpty initContext
     "sage lab" ⟨"russell_sage", false⟩ rfl (by decide) rfl).1 rfl⟩

/-- With no events list and no features sub-record, the union events
renderer produces the empty string. -/
theorem get_events_info_empty (info : Info) (hev : info.events = none)
    (hfe : info.features = none) : get_events_info info = "" := by
  obtain ⟨nm, bu, es, de, sg, hi, ar, cu, fe, ev, mg, ns⟩ := info
  simp only at hev hfe
  subst hev hfe
  rfl

/-- With no features sub-record, the union facilities renderer produces
the empty string. -/
theorem get_facilities_info_empty (info : Info) (hfe : info.features = none) :
    get_facilities_info info = "" := by
  obtain ⟨nm, bu, es, de, sg, hi, ar, cu, fe, ev, mg, ns⟩ := info
  simp only at hfe
  subst hfe
  rfl

/-- With the union record lacking both data sources, any events or
facilities follow-up renders to the empty string inside
`_handle_followup`. -/
theorem handle_followup_union_empty (kb : Knowledge) (q : String)
    (hev : ((kb "rpi_union").getD emptyInfo).events = none)
    (hfe : ((kb "rpi_union").getD emptyInfo).features = none)
    (hkw : containsAny (pyLower q) ["event", "activities", "programs"] = true ∨
      containsAny (pyLower q) ["facilities", "rooms", "spaces"] = true) :
    handle_followup kb "rpi_union" q = some "" := by
  rcases hkw with hk | hk
  · simp only [handle_followup, if_pos rfl, hk, if_true,
      get_events_info_empty _ hev hfe]
  · by_cases he : containsAny (pyLower q) ["event", "activities", "programs"] = true
    · simp only [handle_followup, if_pos rfl, he, if_true,
        get_events_info_empty _ hev hfe]
    · simp only [handle_followup, if_pos rfl, he, hk, if_true, if_false,
        get_facilities_info_empty _ hfe]
      rfl

/-- C10: with current topic rpi_union, a turn carrying an events or
facilities keyword while the record lacks all corresponding data fields
makes the facet renderer return the empty string, which `process_input`
treats as an unrecognized follow-up: the turn falls through to the full
resolution stage (no fallback apology is emitted by the follow-up path). -/
theorem union_empty_facet_fallthrough (score : String → String → Nat)
    (oracle : String → GptAnalysis) (kb : Knowledge) (ctx : Context)
    (q : String) (hT : ctx.current_topic = some "rpi_union")
    (hev : ((kb "rpi_union").getD emptyInfo).events = none)
    (hfe : ((kb "rpi_union").getD emptyInfo).features = none)
    (hkw : containsAny (pyLower q) ["event", "activities", "programs"] = true ∨
      containsAny (pyLower q) ["facilities", "rooms", "spaces"] = true) :
    process_input score oracle kb ctx q =
      resolveStage score oracle kb
        { ctx with conversation_history :=
            ctx.conversation_history ++ [("user", q)] } q := by
  simp only [process_input, hT, handle_followup_union_empty kb q hev hfe hkw,
    if_true]

/-- A union record with no events and no features data (test fixture). -/
def infoUnionBare : Info :=
  { name := some "Rensselaer Union", built := none, established := none,
    dedicated := none, significance := none, history := none,
    architecture := none, current_use := none, features := none,
    events := none, management := none, namesake := none }

/-- A knowledge base holding only the bare union record (test fixture). -/
def kbUnionBare : Knowledge :=
  fun k => if k = "rpi_union" then some infoUnionBare else none

/-- Witness for C10 at the turn "what events happen". -/
theorem union_empty_facet_fallthrough_witness :
    containsAny (pyLower "what events happen")
      ["event", "activities", "programs"] = true ∧
    process_input scoreZero oracleEmpty kbUnionBare ctxUnion
        "what events happen" =
      resolveStage scoreZero oracleEmpty kbUnionBare
        { ctxUnion with conversation_history :=
            ctxUnion.conversation_history ++ [("user", "what events happen")] }
        "what events happen" :=
  ⟨by decide,
   union_empty_facet_fallthrough scoreZero oracleEmpty kbUnionBare ctxUnion
     "what events happen" rfl rfl rfl (Or.inl (by decide))⟩

/-- A successful resolution makes `resolveStage` overwrite the current
topic with the resolved landmark, on every path (including the fuzzy
`KeyError` path, which sets the topic before raising). -/
theorem resolveStage_topic (score : String → String → Nat)
    (oracle : String → GptAnalysis) (kb : Knowledge) (ctx : Context)
    (q : String) (mr : MatchResult)
    (hm : fuzzy_match_landmark score q = some mr) :
    (resolveStage score oracle kb ctx q).2.current_topic =
      some mr.landmark := by
  obtain ⟨lm, fz⟩ := mr
  simp only [resolveStage, hm]
  cases fz
  · rfl
  · cases hn : ((kb lm).getD emptyInfo).name <;> simp only [hn] <;> rfl

/-- `resolveStage` never clears a set topic: every branch either keeps
the context's topic or overwrites it with a `some` value. -/
theorem resolveStage_ctx_cases (score : String → String → Nat)
    (oracle : String → GptAnalysis) (kb : Knowledge) (ctx : Context)
    (q : String) :
    (resolveStage score oracle kb ctx q).2 = ctx ∨
    ∃ l, (resolveStage score oracle kb ctx q).2.current_topic = some l := by
  unfold resolveStage
  repeat' split
  all_goals first
    | exact Or.inl rfl
    | exact Or.inr ⟨_, rfl⟩

/-- `resolveStage` never clears a set topic: every branch either keeps
the context's topic or overwrites it with a `some` value. -/
theorem resolveStage_topic_isSome (score : String → String → Nat)
    (oracle : String → GptAnalysis) (kb : Knowledge) (ctx : Context)
    (q : String) (h : ctx.current_topic.isSome = true) :
    (resolveStage score oracle kb ctx q).2.current_topic.isSome = true := by
  rcases resolveStage_ctx_cases score oracle kb ctx q with hc | ⟨l, hc⟩
  · rw [hc]; exact h
  · rw [hc]; rfl

/-- A single `process_input` turn never clears a set topic. -/
theorem process_input_topic_isSome (score : String → String → Nat)
    (oracle : String → GptAnalysis) (kb : Knowledge) (ctx : Context)
    (q : String) (h : ctx.current_topic.isSome = true) :
    (process_input score oracle kb ctx q).2.current_topic.isSome = true := by
  obtain ⟨t, ht⟩ := Option.isSome_iff_exists.mp h
  simp only [process_input, ht]
  split
  · split
    · exact resolveStage_topic_isSome score oracle kb _ q rfl
    · rfl
  · exact resolveStage_topic_isSome score oracle kb _ q rfl

/-- No sequence of turns ever clears a set topic. -/
theorem runInputs_topic_isSome (score : String → String → Nat)
    (oracle : String → GptAnalysis) (kb : Knowledge) :
    ∀ (inputs : List String) (ctx : Context),
      ctx.current_topic.isSome = true →
      (runInputs score oracle kb ctx inputs).current_topic.isSome = true := by
  intro inputs
  induction inputs with
  | nil => intro ctx h; exact h
  | cons q rest ih =>
    intro ctx h
    exact ih _ (process_input_topic_isSome score oracle kb ctx q h)

/-- C8: the conversation context holds at most one current topic: it
starts null, every successful resolution overwrites it unconditionally
with the newly resolved landmark identifier, and no sequence of
`process_input` calls ever resets a set topic to null. -/
theorem topic_invariant :
    initContext.current_topic = none ∧
    (∀ (score : String → String → Nat) (oracle : String → GptAnalysis)
       (kb : Knowledge) (ctx : Context) (q : String) (mr : MatchResult),
      fuzzy_match_landmark score q = some mr →
      (resolveStage score oracle kb ctx q).2.current_topic =
        some mr.landmark) ∧
    (∀ (score : String → String → Nat) (oracle : String → GptAnalysis)
       (kb : Knowledge) (ctx : Context) (inputs : List String),
      ctx.current_topic.isSome = true →
      (runInputs score oracle kb ctx inputs).current_topic.isSome = true) :=
  ⟨rfl,
   fun score oracle kb ctx q mr hm =>
     resolveStage_topic score oracle kb ctx q mr hm,
   fun score oracle kb ctx inputs h =>
     runInputs_topic_isSome score oracle kb inputs ctx h⟩

/-- Witness for C8: a resolution overwrite and a two-turn run that keeps
the topic set. -/
theorem topic_invariant_witness :
    (resolveStage scoreZero oracleEmpty kbWest initContext
        "west hall").2.current_topic = some "west_hall" ∧
    (runInputs scoreZero oracleEmpty kbWest ctxUnion
        ["hello there", "history"]).current_topic.isSome = true :=
  ⟨topic_invariant.2.1 scoreZero oracleEmpty kbWest initContext "west hall"
     ⟨"west_hall", false⟩ (by decide),
   topic_invariant.2.2 scoreZero oracleEmpty kbWest ctxUnion
     ["hello there", "history"] rfl⟩

/-- Modelled from the spec: the history-facet rendering exactly as claim
C6 words it, with the namesake attribution taken from the history
sub-record's optional namesake field.  Compared against
`get_history_info`, which reads the record's top-level namesake. -/
def historyRenderClaim (info : Info) : String :=
  match info.history with
  | none =>
    "I don't have detailed historical information about " ++
      info.name.getD "This landmark" ++
      ", but you can ask about its architecture or current use."
  | some h =>
    if (h.evolution.toList ++
        (h.origins.map (fun o => "Its origins date back to " ++ o ++ ".")).toList ++
        (h.original_purpose.map (fun p =>
          info.name.getD "This landmark" ++
            "'s original purpose was as " ++ p ++ ".")).toList ++
        (h.builder.map (fun b => "It was built by " ++ b ++ ".")).toList ++
        (match h.timeline with
         | some evs =>
           "Key events in its history include:" ::
             evs.map (fun ev => "- " ++ ev.year ++ ": " ++ ev.event)
         | none => []) ++
        (h.significance.map (fun s =>
          "It is historically significant as " ++ s ++ ".")).toList ++
        (match h.namesake with
         | some ns =>
           ("It was named after " ++ ns.name) ::
             ((ns.role.map (fun r => "who was " ++ r)).toList ++
              (ns.years.map (fun y => "from " ++ y)).toList)
         | none => [])) = [] then
      "I don't have detailed historical information about " ++
        info.name.getD "This landmark" ++
        ", but you can ask about its architecture or current use."
    else
      pyReplace (pyJoin " "
        (h.evolution.toList ++
         (h.origins.map (fun o => "Its origins date back to " ++ o ++ ".")).toList ++
         (h.original_purpose.map (fun p =>
           info.name.getD "This landmark" ++
             "'s original purpose was as " ++ p ++ ".")).toList ++
         (h.builder.map (fun b => "It was built by " ++ b ++ ".")).toList ++
         (match h.timeline with
          | some evs =>
            "Key events in its history include:" ::
              evs.map (fun ev => "- " ++ ev.year ++ ": " ++ ev.event)
          | none => []) ++
         (h.significance.map (fun s =>
           "It is historically significant as " ++ s ++ ".")).toList ++
         (match h.namesake with
          | some ns =>
            ("It was named after " ++ ns.name) ::
              ((ns.role.map (fun r => "who was " ++ r)).toList ++
               (ns.years.map (fun y => "from " ++ y)).toList)
          | none => []))) ".." "." ++ "."

/-- Modelled from the spec: claim C6's rendering amended only in where
the namesake is read — the record's top-level namesake field, which is
the field `_get_history_info` actually reads. -/
def historyRenderAmended (info : Info) : String :=
  match info.history with
  | none =>
    "I don't have detailed historical information about " ++
      info.name.getD "This landmark" ++
      ", but you can ask about its architecture or current use."
  | some h =>
    if (h.evolution.toList ++
        (h.origins.map (fun o => "Its origins date back to " ++ o ++ ".")).toList ++
        (h.original_purpose.map (fun p =>
          info.name.getD "This landmark" ++
            "'s original purpose was as " ++ p ++ ".")).toList ++
        (h.builder.map (fun b => "It was built by " ++ b ++ ".")).toList ++
        (match h.timeline with
         | some evs =>
           "Key events in its history include:" ::
             evs.map (fun ev => "- " ++ ev.year ++ ": " ++ ev.event)
         | none => []) ++
        (h.significance.map (fun s =>
          "It is historically significant as " ++ s ++ ".")).toList ++
        (match info.namesake with
         | some ns =>
           ("It was named after " ++ ns.name) ::
             ((ns.role.map (fun r => "who was " ++ r)).toList ++
              (ns.years.map (fun y => "from " ++ y)).toList)
         | none => [])) = [] then
      "I don't have detailed historical information about " ++
        info.name.getD "This landmark" ++
        ", but you can ask about its architecture or current use."
    else
      pyReplace (pyJoin " "
        (h.evolution.toList ++
         (h.origins.map (fun o => "Its origins date back to " ++ o ++ ".")).toList ++
         (h.original_purpose.map (fun p =>
           info.name.getD "This landmark" ++
             "'s original purpose was as " ++ p ++ ".")).toList ++
         (h.builder.map (fun b => "It was built by " ++ b ++ ".")).toList ++
         (match h.timeline with
          | some evs =>
            "Key events in its history include:" ::
              evs.map (fun ev => "- " ++ ev.year ++ ": " ++ ev.event)
          | none => []) ++
         (h.significance.map (fun s =>
           "It is historically significant as " ++ s ++ ".")).toList ++
         (match info.namesake with
          | some ns =>
            ("It was named after " ++ ns.name) ::
              ((ns.role.map (fun r => "who was " ++ r)).toList ++
               (ns.years.map (fun y => "from " ++ y)).toList)
          | none => []))) ".." "." ++ "."

/-- A record whose history sub-record carries a namesake, with no
top-level namesake (test fixture for the namesake-source divergence). -/
def infoNamesake : Info :=
  { name := some "West Hall", built := none, established := none,
    dedicated := none, significance := none,
    history := some { evolution := some "It evolved", origins := none,
                      original_purpose := none, builder := none,
                      timeline := none, significance := none,
                      namesake := some { name := "Josiah", role := none,
                                         years := none } },
    architecture := none, current_use := none, features := none,
    events := none, management := none, namesake := none }

/-- Counterexample to C6 as stated: the code does not render the history
sub-record's namesake — on a record whose namesake lives inside the
history sub-record, `_get_history_info` omits the attribution the claim
requires. -/
theorem namesake_source_cex :
    get_history_info infoNamesake ≠ historyRenderClaim infoNamesake := by
  decide

set_option maxHeartbeats 2000000 in
/-- C6 (amended): for every record whose history sub-record is present,
the history facet output concatenates exactly the sub-fields that exist
in the fixed order evolution, origins, original purpose, builder,
timeline entries ("- year: event" each, behind their header),
significance, and finally namesake attribution (name, role, years) taken
from the record's top-level optional namesake field — not from the
history sub-record. -/
theorem history_facet_render (info : Info) (h : info.history.isSome = true) :
    get_history_info info = historyRenderAmended info := by
  obtain ⟨nm, bu, es, de, sg, hi, ar, cu, fe, ev, mg, ns⟩ := info
  cases hi with
  | none => simp at h
  | some hh =>
    obtain ⟨hev, hor, hop, hbu, htl, hsg, hns⟩ := hh
    rcases ns with _ | ⟨nsn, nsr, nsy⟩ <;>
      rcases hev with _ | hev <;> rcases hor with _ | hor <;>
      rcases hop with _ | hop <;> rcases hbu with _ | hbu <;>
      rcases htl with _ | htl <;> rcases hsg with _ | hsg
    all_goals try rcases nsr with _ | nsr
    all_goals try rcases nsy with _ | nsy
    all_goals rfl

/-- Witness for C6 (amended) at the west_hall fixture record. -/
theorem history_facet_render_witness :
    infoWest.history.isSome = true ∧
    get_history_info infoWest = historyRenderAmended infoWest :=
  ⟨rfl, history_facet_render infoWest rfl⟩

/-- The filler phrase "tell me about" as characters. -/
def fillerA : List Char := "tell me about".data

/-- The filler phrase "what about" as characters. -/
def fillerB : List Char := "what about".data

/-- The filler phrase "where is" as characters. -/
def fillerC : List Char := "where is".data

/-- Inputs consisting only of whitespace and the three filler phrases. -/
inductive FillerWS : List Char → Prop where
  | nil : FillerWS []
  | ws (c : Char) (hc : pySpace c = true) (rest : List Char)
      (h : FillerWS rest) : FillerWS (c :: rest)
  | tellAbout (rest : List Char) (h : FillerWS rest) :
      FillerWS (fillerA ++ rest)
  | whatAbout (rest : List Char) (h : FillerWS rest) :
      FillerWS (fillerB ++ rest)
  | whereIs (rest : List Char) (h : FillerWS rest) :
      FillerWS (fillerC ++ rest)

/-- What remains after the first replace pass: whitespace and the last
two filler phrases. -/
inductive FW2 : List Char → Prop where
  | nil : FW2 []
  | ws (c : Char) (hc : pySpace c = true) (rest : List Char)
      (h : FW2 rest) : FW2 (c :: rest)
  | whatAbout (rest : List Char) (h : FW2 rest) : FW2 (fillerB ++ rest)
  | whereIs (rest : List Char) (h : FW2 rest) : FW2 (fillerC ++ rest)

/-- What remains after the second replace pass: whitespace and the last
filler phrase. -/
inductive FW3 : List Char → Prop where
  | nil : FW3 []
  | ws (c : Char) (hc : pySpace c = true) (rest : List Char)
      (h : FW3 rest) : FW3 (c :: rest)
  | whereIs (rest : List Char) (h : FW3 rest) : FW3 (fillerC ++ rest)

/-- Mismatching head characters refute a prefix test. -/
theorem isPrefixOf_head_false (a c : Char) (p rest : List Char)
    (h : (a == c) = false) : (a :: p).isPrefixOf (c :: rest) = false := by
  show (a == c && p.isPrefixOf rest) = false
  rw [h]
  rfl

/-- Distinct characters compare `false` under `==`. -/
theorem char_beq_false (a b : Char) (h : a ≠ b) : (a == b) = false := by
  simp [h]

/-- A list is a prefix of itself followed by anything. -/
theorem isPrefixOf_append_self : ∀ (l t : List Char),
    l.isPrefixOf (l ++ t) = true := by
  intro l t
  induction l with
  | nil => cases t <;> rfl
  | cons c cs ih =>
    show (c == c && cs.isPrefixOf (cs ++ t)) = true
    rw [ih]
    simp

/-- The skip counter of the replace scanner drops exactly the block it
is told to drop. -/
theorem replGo_skip (pat rep : List Char) :
    ∀ (a rest : List Char),
      replGo pat rep (a ++ rest) a.length = replGo pat rep rest 0 := by
  intro a
  induction a with
  | nil => intro rest; rfl
  | cons x xs ih => intro rest; exact ih rest

/-- Replace steps over a character where the pattern does not match. -/
theorem pyReplaceL_cons_no_match (pat rep : List Char) (c : Char)
    (cs : List Char) (h : pat.isPrefixOf (c :: cs) = false) :
    pyReplaceL pat rep (c :: cs) = c :: pyReplaceL pat rep cs := by
  show replGo pat rep (c :: cs) 0 = c :: replGo pat rep cs 0
  simp only [replGo]
  rw [if_neg (by simp [h])]

/-- Replace consumes a nonempty pattern occurrence, emits the
replacement, and continues after the matched region. -/
theorem pyReplaceL_match (c : Char) (p rep rest : List Char) :
    pyReplaceL (c :: p) rep ((c :: p) ++ rest) =
      rep ++ pyReplaceL (c :: p) rep rest := by
  show replGo (c :: p) rep ((c :: p) ++ rest) 0 = _
  rw [List.cons_append]
  simp only [replGo]
  have hpre : (c :: p).isPrefixOf (c :: (p ++ rest)) = true := by
    show (c == c && p.isPrefixOf (p ++ rest)) = true
    rw [isPrefixOf_append_self]
    simp
  rw [if_pos ⟨hpre, List.cons_ne_nil c p⟩]
  show rep ++ replGo (c :: p) rep (p ++ rest) ((c :: p).length - 1) = _
  have hl : (c :: p).length - 1 = p.length := by simp
  rw [hl, replGo_skip (c :: p) rep p rest]
  rfl

/-- Replace passes over a block in which the pattern starts nowhere. -/
theorem pyReplaceL_skip_block (pat rep : List Char) :
    ∀ (block rest : List Char),
      (∀ n, n < block.length →
        pat.isPrefixOf (block.drop n ++ rest) = false) →
      pyReplaceL pat rep (block ++ rest) =
        block ++ pyReplaceL pat rep rest := by
  intro block
  induction block with
  | nil => intro rest _; rfl
  | cons c bs ih =>
    intro rest h
    rw [List.cons_append,
      pyReplaceL_cons_no_match pat rep c (bs ++ rest)
        (h 0 (Nat.succ_pos _)),
      ih rest (fun n hn => h (n + 1) (Nat.succ_lt_succ hn))]
    rfl

/-- The possible head characters of a filler-and-whitespace input. -/
theorem fws_head (s : List Char) (h : FillerWS s) :
    s = [] ∨ ∃ c t, s = c :: t ∧
      (pySpace c = true ∨ c = 't' ∨ c = 'w') := by
  cases h with
  | nil => exact Or.inl rfl
  | ws c hc rest h => exact Or.inr ⟨c, rest, rfl, Or.inl hc⟩
  | tellAbout rest h =>
    exact Or.inr ⟨'t', "ell me about".data ++ rest, rfl, Or.inr (Or.inl rfl)⟩
  | whatAbout rest h =>
    exact Or.inr ⟨'w', "hat about".data ++ rest, rfl, Or.inr (Or.inr rfl)⟩
  | whereIs rest h =>
    exact Or.inr ⟨'w', "here is".data ++ rest, rfl, Or.inr (Or.inr rfl)⟩

/-- After a genuine "tell me about" head character, a
filler-and-whitespace remainder can never continue the phrase. -/
theorem ell_not_in_fws (rest : List Char) (h : FillerWS rest) :
    List.isPrefixOf ("ell me about".data) rest = false := by
  rcases fws_head rest h with rfl | ⟨c, t, rfl, hd⟩
  · rfl
  · apply isPrefixOf_head_false
    rcases hd with hd | rfl | rfl
    · exact char_beq_false _ _
        (fun he => absurd (by rw [← he] at hd; exact hd) (by decide))
    · decide
    · decide

/-- First replace pass: "tell me about" occurrences are exactly the
whole filler parts, and removing them leaves an `FW2` string. -/
theorem pass1_fw2 (s : List Char) (h : FillerWS s) :
    FW2 (pyReplaceL fillerA [] s) := by
  induction h with
  | nil => exact FW2.nil
  | ws c hc rest h ih =>
    rw [show fillerA = 't' :: "ell me about".data from rfl,
      pyReplaceL_cons_no_match _ _ _ _
      (isPrefixOf_head_false 't' c _ rest
        (char_beq_false _ _
          (fun he => absurd (by rw [← he] at hc; exact hc) (by decide))))]
    exact FW2.ws c hc _ ih
  | tellAbout rest h ih =>
    rw [show fillerA = 't' :: "ell me about".data from rfl,
      pyReplaceL_match 't' ("ell me about".data) [] rest]
    exact ih
  | whatAbout rest h ih =>
    rw [pyReplaceL_skip_block fillerA [] fillerB rest ?hblk]
    · exact FW2.whatAbout _ ih
    case hblk =>
      intro n hn
      have hn10 : n < 10 := hn
      interval_cases n <;> first | rfl | exact ell_not_in_fws rest h
  | whereIs rest h ih =>
    rw [pyReplaceL_skip_block fillerA [] fillerC rest ?hblk]
    · exact FW2.whereIs _ ih
    case hblk =>
      intro n hn
      have hn8 : n < 8 := hn
      interval_cases n <;> rfl

/-- The possible head characters of an `FW2` string. -/
theorem fw2_head (s : List Char) (h : FW2 s) :
    s = [] ∨ ∃ c t, s = c :: t ∧ (pySpace c = true ∨ c = 'w') := by
  cases h with
  | nil => exact Or.inl rfl
  | ws c hc rest h => exact Or.inr ⟨c, rest, rfl, Or.inl hc⟩
  | whatAbout rest h =>
    exact Or.inr ⟨'w', "hat about".data ++ rest, rfl, Or.inr rfl⟩
  | whereIs rest h =>
    exact Or.inr ⟨'w', "here is".data ++ rest, rfl, Or.inr rfl⟩

/-- Second replace pass: removing "what about" leaves an `FW3` string. -/
theorem pass2_fw3 (s : List Char) (h : FW2 s) :
    FW3 (pyReplaceL fillerB [] s) := by
  induction h with
  | nil => exact FW3.nil
  | ws c hc rest h ih =>
    rw [show fillerB = 'w' :: "hat about".data from rfl,
      pyReplaceL_cons_no_match _ _ _ _
      (isPrefixOf_head_false 'w' c _ rest
        (char_beq_false _ _
          (fun he => absurd (by rw [← he] at hc; exact hc) (by decide))))]
    exact FW3.ws c hc _ ih
  | whatAbout rest h ih =>
    rw [show fillerB = 'w' :: "hat about".data from rfl,
      pyReplaceL_match 'w' ("hat about".data) [] rest]
    exact ih
  | whereIs rest h ih =>
    rw [pyReplaceL_skip_block fillerB [] fillerC rest ?hblk]
    · exact FW3.whereIs _ ih
    case hblk =>
      intro n hn
      have hn8 : n < 8 := hn
      interval_cases n <;> rfl

/-- All characters of a list are whitespace. -/
def allSpace (l : List Char) : Prop := ∀ c ∈ l, pySpace c = true

/-- Third replace pass: removing "where is" leaves only whitespace. -/
theorem pass3_space (s : List Char) (h : FW3 s) :
    allSpace (pyReplaceL fillerC [] s) := by
  induction h with
  | nil => intro c hc; cases hc
  | ws c hc rest h ih =>
    rw [show fillerC = 'w' :: "here is".data from rfl,
      pyReplaceL_cons_no_match _ _ _ _
      (isPrefixOf_head_false 'w' c _ rest
        (char_beq_false _ _
          (fun he => absurd (by rw [← he] at hc; exact hc) (by decide))))]
    intro d hd
    rcases List.mem_cons.mp hd with rfl | hd
    · exact hc
    · exact ih d hd
  | whereIs rest h ih =>
    rw [show fillerC = 'w' :: "here is".data from rfl,
      pyReplaceL_match 'w' ("here is".data) [] rest]
    exact ih

/-- Lowercasing fixes whitespace characters. -/
theorem space_toLower (c : Char) (hc : pySpace c = true) :
    Char.toLower c = c := by
  simp only [pySpace, Bool.or_eq_true, beq_iff_eq] at hc
  rcases hc with ((((rfl | rfl) | rfl) | rfl) | rfl) | rfl <;> decide

/-- Lowercasing fixes a filler-and-whitespace input. -/
theorem lower_fws (s : List Char) (h : FillerWS s) :
    s.map Char.toLower = s := by
  induction h with
  | nil => rfl
  | ws c hc rest h ih => rw [List.map_cons, ih, space_toLower c hc]
  | tellAbout rest h ih =>
    rw [List.map_append, ih,
      show fillerA.map Char.toLower = fillerA from rfl]
  | whatAbout rest h ih =>
    rw [List.map_append, ih,
      show fillerB.map Char.toLower = fillerB from rfl]
  | whereIs rest h ih =>
    rw [List.map_append, ih,
      show fillerC.map Char.toLower = fillerC from rfl]

/-- Dropping leading whitespace preserves the filler grammar. -/
theorem dropWhile_fws (s : List Char) (h : FillerWS s) :
    FillerWS (s.dropWhile pySpace) := by
  induction h with
  | nil => exact FillerWS.nil
  | ws c hc rest h ih =>
    rw [List.dropWhile_cons, if_pos hc]
    exact ih
  | tellAbout rest h ih =>
    rw [show fillerA ++ rest = 't' :: ("ell me about".data ++ rest) from rfl,
      List.dropWhile_cons, if_neg (by decide)]
    exact FillerWS.tellAbout rest h
  | whatAbout rest h ih =>
    rw [show fillerB ++ rest = 'w' :: ("hat about".data ++ rest) from rfl,
      List.dropWhile_cons, if_neg (by decide)]
    exact FillerWS.whatAbout rest h
  | whereIs rest h ih =>
    rw [show fillerC ++ rest = 'w' :: ("here is".data ++ rest) from rfl,
      List.dropWhile_cons, if_neg (by decide)]
    exact FillerWS.whereIs rest h

/-- `dropWhile` over an append whose left part is all accepted. -/
theorem dw_append_pos (p : Char → Bool) :
    ∀ (l₁ l₂ : List Char), (∀ c ∈ l₁, p c = true) →
      (l₁ ++ l₂).dropWhile p = l₂.dropWhile p := by
  intro l₁
  induction l₁ with
  | nil => intro l₂ _; rfl
  | cons c cs ih =>
    intro l₂ h
    rw [List.cons_append, List.dropWhile_cons,
      if_pos (h c (List.mem_cons_self _ _))]
    exact ih l₂ (fun d hd => h d (List.mem_cons_of_mem _ hd))

/-- `dropWhile` over an append whose left part leaves a remainder. -/
theorem dw_append_neg (p : Char → Bool) :
    ∀ (l₁ l₂ x : List Char) (c : Char), l₁.dropWhile p = c :: x →
      (l₁ ++ l₂).dropWhile p = c :: (x ++ l₂) := by
  intro l₁
  induction l₁ with
  | nil => intro l₂ x c h; cases h
  | cons a as ih =>
    intro l₂ x c h
    rw [List.dropWhile_cons] at h
    by_cases hp : p a = true
    · rw [if_pos hp] at h
      rw [List.cons_append, List.dropWhile_cons, if_pos hp]
      exact ih l₂ x c h
    · rw [if_neg hp] at h
      cases h
      rw [List.cons_append, List.dropWhile_cons, if_neg hp]

/-- Right-stripping an append whose right part is all whitespace. -/
theorem rstrip_append_empty (a b : List Char)
    (hb : b.reverse.dropWhile pySpace = []) :
    rstripWS (a ++ b) = rstripWS a := by
  unfold rstripWS
  rw [List.reverse_append,
    dw_append_pos pySpace b.reverse a.reverse
      ((List.dropWhile_eq_nil_iff).mp hb)]

/-- Right-stripping an append whose right part keeps a remainder. -/
theorem rstrip_append_cons (a b x : List Char) (c : Char)
    (hb : b.reverse.dropWhile pySpace = c :: x) :
    rstripWS (a ++ b) = a ++ rstripWS b := by
  unfold rstripWS
  rw [List.reverse_append, dw_append_neg pySpace b.reverse a.reverse x c hb,
    hb]
  simp [List.reverse_cons, List.reverse_append, List.append_assoc]

/-- Dropping trailing whitespace preserves the filler grammar. -/
theorem rstrip_fws (s : List Char) (h : FillerWS s) :
    FillerWS (rstripWS s) := by
  induction h with
  | nil => exact FillerWS.nil
  | ws c hc rest h ih =>
    rcases hdw : rest.reverse.dropWhile pySpace with _ | ⟨x, xs⟩
    · rw [show (c :: rest) = [c] ++ rest from rfl,
        rstrip_append_empty [c] rest hdw,
        show rstripWS [c] = [] from by
          unfold rstripWS
          simp [List.dropWhile_cons, hc]]
      exact FillerWS.nil
    · rw [show (c :: rest) = [c] ++ rest from rfl,
        rstrip_append_cons [c] rest xs x hdw]
      exact FillerWS.ws c hc _ ih
  | tellAbout rest h ih =>
    rcases hdw : rest.reverse.dropWhile pySpace with _ | ⟨x, xs⟩
    · rw [rstrip_append_empty fillerA rest hdw,
        show rstripWS fillerA = fillerA from rfl]
      have := FillerWS.tellAbout [] FillerWS.nil
      rwa [List.append_nil] at this
    · rw [rstrip_append_cons fillerA rest xs x hdw]
      exact FillerWS.tellAbout _ ih
  | whatAbout rest h ih =>
    rcases hdw : rest.reverse.dropWhile pySpace with _ | ⟨x, xs⟩
    · rw [rstrip_append_empty fillerB rest hdw,
        show rstripWS fillerB = fillerB from rfl]
      have := FillerWS.whatAbout [] FillerWS.nil
      rwa [List.append_nil] at this
    · rw [rstrip_append_cons fillerB rest xs x hdw]
      exact FillerWS.whatAbout _ ih
  | whereIs rest h ih =>
    rcases hdw : rest.reverse.dropWhile pySpace with _ | ⟨x, xs⟩
    · rw [rstrip_append_empty fillerC rest hdw,
        show rstripWS fillerC = fillerC from rfl]
      have := FillerWS.whereIs [] FillerWS.nil
      rwa [List.append_nil] at this
    · rw [rstrip_append_cons fillerC rest xs x hdw]
      exact FillerWS.whereIs _ ih

/-- Stripping an all-whitespace list leaves nothing. -/
theorem pyStripL_allSpace (l : List Char) (h : allSpace l) :
    pyStripL l = [] := by
  unfold pyStripL
  have hdw : l.dropWhile pySpace = [] := (List.dropWhile_eq_nil_iff).mpr h
  rw [hdw]
  rfl

/-- Cleaning an input of whitespace and filler phrases yields the empty
query string. -/
theorem cleanQuery_fillerws (q : String) (h : FillerWS q.data) :
    cleanQuery q = "" := by
  apply string_data_ext
  show pyStripL (pyReplaceL fillerC [] (pyReplaceL fillerB []
    (pyReplaceL fillerA [] (pyStripL (q.data.map Char.toLower))))) = []
  rw [lower_fws q.data h]
  exact pyStripL_allSpace _
    (pass3_space _ (pass2_fw3 _ (pass1_fw2 _
      (rstrip_fws _ (dropWhile_fws _ h)))))

/-- C9: every input that is empty or consists only of whitespace and the
filler phrases cleans to the empty query string, which is a substring of
every alias, so the resolver returns the first alias's landmark
(russell_sage) as an exact, non-fuzzy match rather than no match. -/
theorem filler_input_first_alias (score : String → String → Nat)
    (q : String) (h : FillerWS q.data) :
    cleanQuery q = "" ∧
    fuzzy_match_landmark score q = some ⟨"russell_sage", false⟩ := by
  have hc := cleanQuery_fillerws q h
  refine ⟨hc, fuzzy_match_of_contain score q "russell_sage" ?_⟩
  rw [hc]
  decide

/-- Witness for C9 at the input "tell me about". -/
theorem filler_input_first_alias_witness :
    cleanQuery "tell me about" = "" ∧
    fuzzy_match_landmark scoreZero "tell me about" =
      some ⟨"russell_sage", false⟩ :=
  filler_input_first_alias scoreZero "tell me about"
    (by
      have := FillerWS.tellAbout [] FillerWS.nil
      rwa [List.append_nil] at this)
